import Mathlib

/-! Verification development for the procedural-animation core of
`src/procanim/mod.rs` (Jakobsen-style Verlet particles with iterative
link constraints and an axis-aligned containment box).

The `f32` arithmetic of the source is modelled over `ℝ`.  A second,
extended-value model (`F`, further below) adds the IEEE special values
`+∞`, `-∞` and `NaN` so that the divisions by a zero length that the
source performs without a guard can be examined faithfully. -/

open scoped Classical

namespace Procanim

/-- 3-component vector, modelling glam's `Vec3` with `ℝ` components. -/
@[ext] structure Vec3 where
  x : ℝ
  y : ℝ
  z : ℝ

namespace Vec3

noncomputable instance : Add Vec3 := ⟨fun a b => ⟨a.x + b.x, a.y + b.y, a.z + b.z⟩⟩
noncomputable instance : Sub Vec3 := ⟨fun a b => ⟨a.x - b.x, a.y - b.y, a.z - b.z⟩⟩
noncomputable instance : HMul Vec3 ℝ Vec3 := ⟨fun v s => ⟨v.x * s, v.y * s, v.z * s⟩⟩
noncomputable instance : HMul ℝ Vec3 Vec3 := ⟨fun s v => ⟨s * v.x, s * v.y, s * v.z⟩⟩
noncomputable instance : HDiv Vec3 ℝ Vec3 := ⟨fun v s => ⟨v.x / s, v.y / s, v.z / s⟩⟩

@[simp] lemma add_x (a b : Vec3) : (a + b).x = a.x + b.x := rfl
@[simp] lemma add_y (a b : Vec3) : (a + b).y = a.y + b.y := rfl
@[simp] lemma add_z (a b : Vec3) : (a + b).z = a.z + b.z := rfl
@[simp] lemma sub_x (a b : Vec3) : (a - b).x = a.x - b.x := rfl
@[simp] lemma sub_y (a b : Vec3) : (a - b).y = a.y - b.y := rfl
@[simp] lemma sub_z (a b : Vec3) : (a - b).z = a.z - b.z := rfl
@[simp] lemma mulr_x (v : Vec3) (s : ℝ) : (v * s).x = v.x * s := rfl
@[simp] lemma mulr_y (v : Vec3) (s : ℝ) : (v * s).y = v.y * s := rfl
@[simp] lemma mulr_z (v : Vec3) (s : ℝ) : (v * s).z = v.z * s := rfl
@[simp] lemma rmul_x (s : ℝ) (v : Vec3) : (s * v).x = s * v.x := rfl
@[simp] lemma rmul_y (s : ℝ) (v : Vec3) : (s * v).y = s * v.y := rfl
@[simp] lemma rmul_z (s : ℝ) (v : Vec3) : (s * v).z = s * v.z := rfl
@[simp] lemma divr_x (v : Vec3) (s : ℝ) : (v / s).x = v.x / s := rfl
@[simp] lemma divr_y (v : Vec3) (s : ℝ) : (v / s).y = v.y / s := rfl
@[simp] lemma divr_z (v : Vec3) (s : ℝ) : (v / s).z = v.z / s := rfl

/-- `Vec3::length`: `sqrt (x*x + y*y + z*z)` (glam `dot(self, self).sqrt()`). -/
noncomputable def length (v : Vec3) : ℝ :=
  Real.sqrt (v.x * v.x + v.y * v.y + v.z * v.z)

/-- `Vec3::clamp(min, max)`, glam `self.max(min).min(max)`, component-wise. -/
noncomputable def clamp (v lo hi : Vec3) : Vec3 :=
  ⟨min (max v.x lo.x) hi.x, min (max v.y lo.y) hi.y, min (max v.z lo.z) hi.z⟩

/-- Component-wise order on `Vec3`. -/
def le (a b : Vec3) : Prop := a.x ≤ b.x ∧ a.y ≤ b.y ∧ a.z ≤ b.z

end Vec3

/-- `NUM_ITERATIONS`: fixed iteration budget of the per-link relaxation loop. -/
def NUM_ITERATIONS : ℕ := 5

/-- `PHYSICS_SCALE`. -/
noncomputable def PHYSICS_SCALE : ℝ := 15.0

/-- `BOTTOM_BOUND`: lower corner of the containment box. -/
noncomputable def BOTTOM_BOUND : Vec3 := ⟨-300, -300, 0⟩

/-- `TOP_BOUND`: upper corner of the containment box. -/
noncomputable def TOP_BOUND : Vec3 := ⟨0, 0, 0⟩

/-- `DEFAULT_PARTICLE_GRAVITY`. -/
noncomputable def DEFAULT_PARTICLE_GRAVITY : Vec3 := ⟨0, PHYSICS_SCALE * -9.81, 0⟩

/-- The `Particle` component (the display-only `colour` field is omitted;
the `Transform` translation is carried separately, as the source mutates
it through a separate `Transform` component). -/
structure Particle where
  acceleration : Vec3
  tx_prev : Vec3
  mass : ℝ

namespace Particle

/-- `Particle::verlet`: position-Verlet step.  Returns the updated particle
together with the updated translation. -/
noncomputable def verlet (p : Particle) (translation : Vec3) (dt : ℝ) :
    Particle × Vec3 :=
  let x_prime := (2.0 : ℝ) * translation - p.tx_prev + p.acceleration * dt * dt
  ({ p with tx_prev := translation }, x_prime)

/-- `Particle::accumulate_forces`: overwrites the acceleration. -/
def accumulate_forces (p : Particle) (force : Vec3) : Particle :=
  { p with acceleration := force }

/-- `Particle::satisfy_constraints`: clamp the translation into the box. -/
noncomputable def satisfy_constraints (translation : Vec3) : Vec3 :=
  translation.clamp BOTTOM_BOUND TOP_BOUND

end Particle

/-- `ParticleLinkType`. -/
inductive ParticleLinkType where
  | Exact : ℝ → ParticleLinkType
  | Min : ℝ → ParticleLinkType
  | Max : ℝ → ParticleLinkType

/-- The inverse-mass selection inlined (twice) in
`ParticleLink::link_constraint`: `1/mass`, with a large finite sentinel
when `|mass| < 0.0001`. -/
noncomputable def invMass (m : ℝ) : ℝ :=
  if |m| < 0.0001 then 100000000.0 else 1 / m

/-- `ParticleLink::link_constraint`: one corrective displacement, mass
weighted; returns the updated pair of translations. -/
noncomputable def link_constraint (tx1 : Vec3) (p1 : Particle) (tx2 : Vec3)
    (p2 : Particle) (link_type : ParticleLinkType) : Vec3 × Vec3 :=
  let delta := tx2 - tx1
  let delta_length := delta.length
  let link_length :=
    match link_type with
    | ParticleLinkType.Exact length => length
    | ParticleLinkType.Min min_length => max delta_length min_length
    | ParticleLinkType.Max max_length => min delta_length max_length
  let inv_mass_1 := invMass p1.mass
  let inv_mass_2 := invMass p2.mass
  let link_diff :=
    delta * (0.5 : ℝ) * (delta_length - link_length) /
      (delta_length * (inv_mass_1 + inv_mass_2))
  (tx1 + inv_mass_1 * link_diff, tx2 - inv_mass_2 * link_diff)

/-- One iteration of the body of `ParticleLink::satisfy_constraints`:
clamp both endpoints into the box, then apply the link constraint. -/
noncomputable def relaxStep (link_type : ParticleLinkType) (pa pb : Particle)
    (s : Vec3 × Vec3) : Vec3 × Vec3 :=
  let ta := Particle.satisfy_constraints s.1
  let tb := Particle.satisfy_constraints s.2
  link_constraint ta pa tb pb link_type

/-- The `for _ in 1..=NUM_ITERATIONS` loop of
`ParticleLink::satisfy_constraints`, with remaining fuel as the first
argument.  It `break`s as soon as one iteration leaves both endpoint
positions equal to their values entering that iteration.  The second
component of the result counts the iterations actually executed. -/
noncomputable def relaxLoop (link_type : ParticleLinkType) (pa pb : Particle) :
    ℕ → Vec3 × Vec3 → (Vec3 × Vec3) × ℕ
  | 0, s => (s, 0)
  | Nat.succ n, s =>
    let s' := relaxStep link_type pa pb s
    if s' = s then (s', 1)
    else
      let r := relaxLoop link_type pa pb n s'
      (r.1, r.2 + 1)

/-- Repeated application of the bare link-constraint relaxation step
(no boundary interference), as in the convergence scenario. -/
noncomputable def linkIter (link_type : ParticleLinkType) (pa pb : Particle) :
    ℕ → Vec3 × Vec3 → Vec3 × Vec3
  | 0, s => s
  | Nat.succ n, s =>
    linkIter link_type pa pb n (link_constraint s.1 pa s.2 pb link_type)

/-- Separation of the two endpoints after `n` bare relaxation steps. -/
noncomputable def sepIter (link_type : ParticleLinkType) (pa pb : Particle)
    (s : Vec3 × Vec3) (n : ℕ) : ℝ :=
  Vec3.length ((linkIter link_type pa pb n s).2 - (linkIter link_type pa pb n s).1)

/-- Entities are modelled as natural numbers. -/
abbrev Entity : Type := ℕ

/-- The state the ECS holds for one particle entity: its `Transform`
translation together with its `Particle` component. -/
structure PState where
  tx : Vec3
  particle : Particle

/-- The mutable particle store: what `Query<(&mut Transform, &mut Particle)>`
can resolve. -/
abbrev World : Type := Entity → Option PState

/-- The `ParticleLink` component. -/
structure ParticleLink where
  a : Entity
  b : Entity
  link_type : ParticleLinkType

/-- `Query::get_many_mut([a, b])`: fails (`Err`) when either entity lacks
the queried components or when the two entities alias. -/
def getManyMut (w : World) (a b : Entity) : Option (PState × PState) :=
  if a = b then none
  else
    match w a, w b with
    | some sa, some sb => some (sa, sb)
    | _, _ => none

/-- `ParticleLink::satisfy_constraints` on the world: `get_many_mut` +
`expect` (a panic, modelled as `none`), then the relaxation loop, writing
the final translations back. -/
noncomputable def ParticleLink.satisfy_constraints (l : ParticleLink)
    (w : World) : Option World :=
  match getManyMut w l.a l.b with
  | none => none
  | some (sa, sb) =>
    let r := relaxLoop l.link_type sa.particle sb.particle NUM_ITERATIONS (sa.tx, sb.tx)
    some (fun e =>
      if e = l.a then some ⟨r.1.1, sa.particle⟩
      else if e = l.b then some ⟨r.1.2, sb.particle⟩
      else w e)

/-- The per-particle half of `update_particles`: overwrite acceleration
with gravity, then the Verlet step, for every particle. -/
noncomputable def integrateAll (gravity : Vec3) (dt : ℝ) (w : World) : World :=
  fun e =>
    (w e).map (fun s =>
      let p := s.particle.accumulate_forces gravity
      let r := p.verlet s.tx dt
      ⟨r.2, r.1⟩)

/-- The per-link half of `update_particles`: relax every link in order;
a panic anywhere aborts the tick. -/
noncomputable def relaxAll : List ParticleLink → World → Option World
  | [], w => some w
  | l :: ls, w =>
    match l.satisfy_constraints w with
    | none => none
    | some w' => relaxAll ls w'

/-- `constrain_unliked_particles`: despite its name it clamps every
particle's translation into the box. -/
noncomputable def constrainUnlinkedParticles (w : World) : World :=
  fun e => (w e).map (fun s => ⟨Particle.satisfy_constraints s.tx, s.particle⟩)

/-- One full `FixedUpdate` tick: `update_particles` chained with
`constrain_unliked_particles`. -/
noncomputable def fixedTick (gravity : Vec3) (dt : ℝ)
    (links : List ParticleLink) (w : World) : Option World :=
  match relaxAll links (integrateAll gravity dt w) with
  | none => none
  | some w' => some (constrainUnlinkedParticles w')

/-! ### Extended-value model of `f32`

Exact real values extended with the IEEE special values, to examine what
`link_constraint` does where its divisor is zero.  Rounding is not
modelled (every value reached in the theorems below is exact), and the
sign of zero is not tracked (it only influences which infinity `x / 0`
yields for `x ≠ 0`, which no theorem below depends on). -/

inductive F where
  | fin : ℝ → F
  | pinf : F
  | ninf : F
  | nan : F

namespace F

noncomputable def neg : F → F
  | fin a => fin (-a)
  | pinf => ninf
  | ninf => pinf
  | nan => nan

noncomputable def add : F → F → F
  | nan, _ => nan
  | _, nan => nan
  | fin a, fin b => fin (a + b)
  | pinf, ninf => nan
  | ninf, pinf => nan
  | pinf, _ => pinf
  | _, pinf => pinf
  | ninf, _ => ninf
  | _, ninf => ninf

noncomputable def sub (a b : F) : F := add a (neg b)

noncomputable def mul : F → F → F
  | nan, _ => nan
  | _, nan => nan
  | fin a, fin b => fin (a * b)
  | fin a, pinf => if a = 0 then nan else if 0 < a then pinf else ninf
  | pinf, fin a => if a = 0 then nan else if 0 < a then pinf else ninf
  | fin a, ninf => if a = 0 then nan else if 0 < a then ninf else pinf
  | ninf, fin a => if a = 0 then nan else if 0 < a then ninf else pinf
  | pinf, pinf => pinf
  | pinf, ninf => ninf
  | ninf, pinf => ninf
  | ninf, ninf => pinf

noncomputable def div : F → F → F
  | nan, _ => nan
  | _, nan => nan
  | fin a, fin b =>
    if b = 0 then (if a = 0 then nan else if 0 < a then pinf else ninf)
    else fin (a / b)
  | fin _, pinf => fin 0
  | fin _, ninf => fin 0
  | pinf, fin b => if 0 ≤ b then pinf else ninf
  | ninf, fin b => if 0 ≤ b then ninf else pinf
  | pinf, pinf => nan
  | pinf, ninf => nan
  | ninf, pinf => nan
  | ninf, ninf => nan

noncomputable def sqrt : F → F
  | nan => nan
  | pinf => pinf
  | ninf => nan
  | fin a => if a < 0 then nan else fin (Real.sqrt a)

noncomputable def fabs : F → F
  | fin a => fin |a|
  | pinf => pinf
  | ninf => pinf
  | nan => nan

/-- IEEE `<`: any comparison with NaN is false. -/
def flt : F → F → Prop
  | nan, _ => False
  | _, nan => False
  | fin a, fin b => a < b
  | fin _, pinf => True
  | ninf, fin _ => True
  | ninf, pinf => True
  | _, _ => False

/-- Rust `f32::max` (NaN-ignoring). -/
noncomputable def fmax : F → F → F
  | nan, y => y
  | x, nan => x
  | x, y => if flt x y then y else x

/-- Rust `f32::min` (NaN-ignoring). -/
noncomputable def fmin : F → F → F
  | nan, y => y
  | x, nan => x
  | x, y => if flt y x then y else x

end F

/-- `Vec3` over the extended values. -/
structure FVec3 where
  x : F
  y : F
  z : F

namespace FVec3

noncomputable def add (a b : FVec3) : FVec3 := ⟨F.add a.x b.x, F.add a.y b.y, F.add a.z b.z⟩

noncomputable def sub (a b : FVec3) : FVec3 := ⟨F.sub a.x b.x, F.sub a.y b.y, F.sub a.z b.z⟩

noncomputable def muls (v : FVec3) (s : F) : FVec3 := ⟨F.mul v.x s, F.mul v.y s, F.mul v.z s⟩

noncomputable def smul (s : F) (v : FVec3) : FVec3 := ⟨F.mul s v.x, F.mul s v.y, F.mul s v.z⟩

noncomputable def divs (v : FVec3) (s : F) : FVec3 := ⟨F.div v.x s, F.div v.y s, F.div v.z s⟩

/-- `Vec3::length` over extended values. -/
noncomputable def length (v : FVec3) : F :=
  F.sqrt (F.add (F.add (F.mul v.x v.x) (F.mul v.y v.y)) (F.mul v.z v.z))

end FVec3

/-- `ParticleLink::link_constraint`, step for step, over the extended
values; the source's link lengths and masses are exact `f32` constants,
carried as `F.fin` payloads. -/
noncomputable def link_constraintF (tx1 : FVec3) (m1 : F) (tx2 : FVec3)
    (m2 : F) (link_type : ParticleLinkType) : FVec3 × FVec3 :=
  let delta := FVec3.sub tx2 tx1
  let delta_length := delta.length
  let link_length :=
    match link_type with
    | ParticleLinkType.Exact length => F.fin length
    | ParticleLinkType.Min min_length => F.fmax delta_length (F.fin min_length)
    | ParticleLinkType.Max max_length => F.fmin delta_length (F.fin max_length)
  let inv_mass_1 :=
    if F.flt (F.fabs m1) (F.fin 0.0001) then F.fin 100000000.0 else F.div (F.fin 1) m1
  let inv_mass_2 :=
    if F.flt (F.fabs m2) (F.fin 0.0001) then F.fin 100000000.0 else F.div (F.fin 1) m2
  let link_diff :=
    FVec3.divs (FVec3.muls (FVec3.muls delta (F.fin 0.5)) (F.sub delta_length link_length))
      (F.mul delta_length (F.add inv_mass_1 inv_mass_2))
  (FVec3.add tx1 (FVec3.smul inv_mass_1 link_diff),
   FVec3.sub tx2 (FVec3.smul inv_mass_2 link_diff))

/-! ### Concrete instances used by witnesses -/

/-- A default-mass particle with no accumulated acceleration. -/
noncomputable def unitParticle : Particle := ⟨⟨0, 0, 0⟩, ⟨0, 0, 0⟩, 1⟩

/-- A zero-mass particle. -/
noncomputable def zeroMassParticle : Particle := ⟨⟨0, 0, 0⟩, ⟨0, 0, 0⟩, 0⟩

/-- An in-box position at which a 15-long `Exact 15` link is satisfied. -/
noncomputable def fixA : Vec3 := ⟨-30, 0, 0⟩

/-- The other endpoint of the satisfied link. -/
noncomputable def fixB : Vec3 := ⟨-15, 0, 0⟩

/-- A world with no particles at all. -/
noncomputable def emptyWorld : World := fun _ => none

/-- A world with a single free particle at the demo start position. -/
noncomputable def oneParticleWorld : World :=
  fun e => if e = 0 then some ⟨⟨-150, -150, 0⟩, unitParticle⟩ else none

/-! ### Helper lemmas -/

@[simp] lemma F.add_fin (a b : ℝ) : F.add (F.fin a) (F.fin b) = F.fin (a + b) := rfl

@[simp] lemma F.add_fin_nan (a : ℝ) : F.add (F.fin a) F.nan = F.nan := rfl

@[simp] lemma F.add_nan (x : F) : F.add F.nan x = F.nan := by cases x <;> rfl

@[simp] lemma F.neg_fin (a : ℝ) : F.neg (F.fin a) = F.fin (-a) := rfl

@[simp] lemma F.sub_fin (a b : ℝ) : F.sub (F.fin a) (F.fin b) = F.fin (a - b) := by
  simp [F.sub, sub_eq_add_neg]

@[simp] lemma F.sub_fin_nan (a : ℝ) : F.sub (F.fin a) F.nan = F.nan := rfl

@[simp] lemma F.mul_fin (a b : ℝ) : F.mul (F.fin a) (F.fin b) = F.fin (a * b) := rfl

@[simp] lemma F.mul_fin_nan (a : ℝ) : F.mul (F.fin a) F.nan = F.nan := rfl

@[simp] lemma F.div_zero_zero : F.div (F.fin 0) (F.fin 0) = F.nan := by
  simp [F.div]

@[simp] lemma F.sqrt_fin_zero : F.sqrt (F.fin 0) = F.fin 0 := by
  simp [F.sqrt]

@[simp] lemma F.fabs_fin (a : ℝ) : F.fabs (F.fin a) = F.fin |a| := rfl

@[simp] lemma F.flt_fin (a b : ℝ) : F.flt (F.fin a) (F.fin b) = (a < b) := rfl

@[simp] lemma F.fmax_fin (a b : ℝ) :
    F.fmax (F.fin a) (F.fin b) = if a < b then F.fin b else F.fin a := rfl

@[simp] lemma F.fmin_fin (a b : ℝ) :
    F.fmin (F.fin a) (F.fin b) = if b < a then F.fin b else F.fin a := rfl

@[simp] lemma F.div_one_fin (m : ℝ) (h : m ≠ 0) :
    F.div (F.fin 1) (F.fin m) = F.fin (1 / m) := by
  simp [F.div, h]

/-- The relaxation loop never executes more iterations than its fuel. -/
lemma relaxLoop_count (link_type : ParticleLinkType) (pa pb : Particle) :
    ∀ (n : ℕ) (s : Vec3 × Vec3), (relaxLoop link_type pa pb n s).2 ≤ n := by
  intro n
  induction n with
  | zero => intro s; simp [relaxLoop]
  | succ n ih =>
    intro s
    rw [relaxLoop]
    split
    · simp
    · simpa using Nat.add_le_add_right (ih _) 1

lemma clamp1_ge (lo hi x : ℝ) (h : lo ≤ hi) : lo ≤ min (max x lo) hi :=
  le_min (le_max_right x lo) h

lemma clamp1_le (lo hi x : ℝ) : min (max x lo) hi ≤ hi := min_le_right _ _

lemma clamp1_idem (lo hi x : ℝ) (h : lo ≤ hi) :
    min (max (min (max x lo) hi) lo) hi = min (max x lo) hi := by
  rw [max_eq_left (clamp1_ge lo hi x h), min_eq_left (clamp1_le lo hi x)]

lemma satisfy_ge_bot (v : Vec3) :
    Vec3.le BOTTOM_BOUND (Particle.satisfy_constraints v) := by
  refine ⟨?_, ?_, ?_⟩ <;>
    simp [Particle.satisfy_constraints, Vec3.clamp, BOTTOM_BOUND, TOP_BOUND]

lemma satisfy_le_top (v : Vec3) :
    Vec3.le (Particle.satisfy_constraints v) TOP_BOUND := by
  refine ⟨?_, ?_, ?_⟩ <;>
    simp [Particle.satisfy_constraints, Vec3.clamp, BOTTOM_BOUND, TOP_BOUND]

lemma satisfy_idem (v : Vec3) :
    Particle.satisfy_constraints (Particle.satisfy_constraints v) =
      Particle.satisfy_constraints v := by
  simp only [Particle.satisfy_constraints, Vec3.clamp, BOTTOM_BOUND, TOP_BOUND]
  ext <;> exact clamp1_idem _ _ _ (by norm_num)

lemma length_single (a : ℝ) (h : 0 ≤ a) : Vec3.length ⟨a, 0, 0⟩ = a := by
  simp only [Vec3.length, mul_zero, add_zero]
  exact Real.sqrt_mul_self h

lemma length_smul (c : ℝ) (v : Vec3) :
    Vec3.length (c * v) = |c| * Vec3.length v := by
  simp only [Vec3.length, Vec3.rmul_x, Vec3.rmul_y, Vec3.rmul_z]
  rw [show c * v.x * (c * v.x) + c * v.y * (c * v.y) + c * v.z * (c * v.z)
        = (c * c) * (v.x * v.x + v.y * v.y + v.z * v.z) by ring,
    Real.sqrt_mul (mul_self_nonneg c), Real.sqrt_mul_self_eq_abs]

lemma length_nonneg (v : Vec3) : 0 ≤ Vec3.length v := Real.sqrt_nonneg _

lemma invMass_pos {m : ℝ} (h : 0 < m) : 0 < invMass m := by
  unfold invMass
  split
  · norm_num
  · exact one_div_pos.mpr h

/-- The net effect of one `Exact` link-constraint application on the
separation vector: it is scaled by `(len + d) / (2 len)`. -/
lemma link_exact_delta (tx1 tx2 : Vec3) (p1 p2 : Particle) (d : ℝ)
    (hsum : invMass p1.mass + invMass p2.mass ≠ 0)
    (hdl : Vec3.length (tx2 - tx1) ≠ 0) :
    (link_constraint tx1 p1 tx2 p2 (ParticleLinkType.Exact d)).2 -
        (link_constraint tx1 p1 tx2 p2 (ParticleLinkType.Exact d)).1 =
      ((Vec3.length (tx2 - tx1) + d) / (2 * Vec3.length (tx2 - tx1))) * (tx2 - tx1) := by
  simp only [link_constraint]
  ext <;> simp only [Vec3.sub_x, Vec3.sub_y, Vec3.sub_z, Vec3.add_x, Vec3.add_y,
    Vec3.add_z, Vec3.rmul_x, Vec3.rmul_y, Vec3.rmul_z, Vec3.mulr_x, Vec3.mulr_y,
    Vec3.mulr_z, Vec3.divr_x, Vec3.divr_y, Vec3.divr_z] <;>
    (field_simp; ring)

lemma sep_succ (link_type : ParticleLinkType) (pa pb : Particle) (n : ℕ)
    (s : Vec3 × Vec3) :
    sepIter link_type pa pb s (n + 1) =
      sepIter link_type pa pb (link_constraint s.1 pa s.2 pb link_type) n := rfl

/-- Explicit formula for the separation after `n` bare `Exact` relaxation
steps: the distance-to-target error halves each step. -/
lemma sep_exact_formula (d : ℝ) (pa pb : Particle) (hd : 0 < d)
    (ha : 0 < pa.mass) (hb : 0 < pb.mass) :
    ∀ (n : ℕ) (s : Vec3 × Vec3), 0 < Vec3.length (s.2 - s.1) →
      sepIter (ParticleLinkType.Exact d) pa pb s n =
          d + (Vec3.length (s.2 - s.1) - d) / 2 ^ n
        ∧ 0 < sepIter (ParticleLinkType.Exact d) pa pb s n := by
  intro n
  induction n with
  | zero =>
    intro s h0
    have h : sepIter (ParticleLinkType.Exact d) pa pb s 0 = Vec3.length (s.2 - s.1) := rfl
    rw [h]
    constructor
    · ring
    · exact h0
  | succ n ih =>
    intro s h0
    set L := Vec3.length (s.2 - s.1) with hL
    have hsum : invMass pa.mass + invMass pb.mass ≠ 0 :=
      ne_of_gt (add_pos (invMass_pos ha) (invMass_pos hb))
    set s' := link_constraint s.1 pa s.2 pb (ParticleLinkType.Exact d) with hs'
    have hdelta : s'.2 - s'.1 = ((L + d) / (2 * L)) * (s.2 - s.1) :=
      link_exact_delta s.1 s.2 pa pb d hsum (ne_of_gt h0)
    have hfac : 0 ≤ (L + d) / (2 * L) :=
      div_nonneg (by positivity) (by positivity)
    have hlen : Vec3.length (s'.2 - s'.1) = (L + d) / 2 := by
      rw [hdelta, length_smul, abs_of_nonneg hfac, ← hL]
      field_simp
      ring
    have hpos : 0 < Vec3.length (s'.2 - s'.1) := by
      rw [hlen]; positivity
    have step : sepIter (ParticleLinkType.Exact d) pa pb s (n + 1) =
        sepIter (ParticleLinkType.Exact d) pa pb s' n := sep_succ _ _ _ _ _
    obtain ⟨ihf, ihp⟩ := ih s' hpos
    constructor
    · rw [step, ihf, hlen]
      rw [pow_succ]
      field_simp
      ring
    · rw [step]; exact ihp

/-- The relaxation loop stops, with state unchanged, as soon as one
iteration produces no position change. -/
lemma relaxLoop_fix (link_type : ParticleLinkType) (pa pb : Particle)
    (s : Vec3 × Vec3) (n : ℕ) (h : relaxStep link_type pa pb s = s) :
    relaxLoop link_type pa pb (n + 1) s = (s, 1) := by
  rw [relaxLoop]
  simp [h]

/-- Core computation behind C2: once the separation vector and length are
exactly zero and both inverse masses are finite, the correction vector is
`0 / 0` in every component, i.e. NaN, and NaN lands in both positions. -/
lemma linkF_nan_core (a b c r s1 s2 : ℝ) :
    ((FVec3.add ⟨F.fin a, F.fin b, F.fin c⟩
        (FVec3.smul (F.fin s1)
          (FVec3.divs
            (FVec3.muls (FVec3.muls ⟨F.fin 0, F.fin 0, F.fin 0⟩ (F.fin 0.5))
              (F.sub (F.fin 0) (F.fin r)))
            (F.mul (F.fin 0) (F.add (F.fin s1) (F.fin s2)))))),
      (FVec3.sub ⟨F.fin a, F.fin b, F.fin c⟩
        (FVec3.smul (F.fin s2)
          (FVec3.divs
            (FVec3.muls (FVec3.muls ⟨F.fin 0, F.fin 0, F.fin 0⟩ (F.fin 0.5))
              (F.sub (F.fin 0) (F.fin r)))
            (F.mul (F.fin 0) (F.add (F.fin s1) (F.fin s2)))))))
      = (⟨F.nan, F.nan, F.nan⟩, ⟨F.nan, F.nan, F.nan⟩) := by
  simp [FVec3.muls, FVec3.divs, FVec3.smul, FVec3.add, FVec3.sub]

/-! ### The claims -/

/-- Claim C2 (refuted by the IEEE-value model - the code has no zero
length guard): a link-constraint application to exactly coincident finite
endpoints stores NaN into every component of both positions, for every
link kind and all finite masses, instead of being a no-op. -/
theorem C2_coincident_stores_nan (a b c m1 m2 : ℝ) (lt : ParticleLinkType) :
    link_constraintF ⟨F.fin a, F.fin b, F.fin c⟩ (F.fin m1)
        ⟨F.fin a, F.fin b, F.fin c⟩ (F.fin m2) lt
      = (⟨F.nan, F.nan, F.nan⟩, ⟨F.nan, F.nan, F.nan⟩) := by
  have hdelta : FVec3.sub ⟨F.fin a, F.fin b, F.fin c⟩ ⟨F.fin a, F.fin b, F.fin c⟩
      = ⟨F.fin 0, F.fin 0, F.fin 0⟩ := by
    simp [FVec3.sub]
  have hlen : FVec3.length (⟨F.fin 0, F.fin 0, F.fin 0⟩ : FVec3) = F.fin 0 := by
    simp [FVec3.length]
  have hne : ∀ m : ℝ, ¬|m| < 0.0001 → m ≠ 0 := by
    intro m h e
    rw [e] at h
    norm_num at h
  have him : ∀ m : ℝ, ∃ s : ℝ,
      (if F.flt (F.fabs (F.fin m)) (F.fin 0.0001) then F.fin 100000000.0
       else F.div (F.fin 1) (F.fin m)) = F.fin s := by
    intro m
    by_cases h : F.flt (F.fabs (F.fin m)) (F.fin 0.0001)
    · exact ⟨100000000.0, if_pos h⟩
    · have hm : m ≠ 0 := hne m (by simpa using h)
      exact ⟨1 / m, by rw [if_neg h]; exact F.div_one_fin m hm⟩
  obtain ⟨s1, hs1⟩ := him m1
  obtain ⟨s2, hs2⟩ := him m2
  cases lt with
  | Exact d =>
    simp only [link_constraintF, hdelta, hlen, hs1, hs2]
    exact linkF_nan_core a b c d s1 s2
  | Min dm =>
    simp only [link_constraintF, hdelta, hlen, hs1, hs2, F.fmax_fin]
    split_ifs with h
    · exact linkF_nan_core a b c dm s1 s2
    · exact linkF_nan_core a b c 0 s1 s2
  | Max dm =>
    simp only [link_constraintF, hdelta, hlen, hs1, hs2, F.fmin_fin]
    split_ifs with h
    · exact linkF_nan_core a b c dm s1 s2
    · exact linkF_nan_core a b c 0 s1 s2

/-- Claim C3: one integrator step sets the new position to
`2 * position - previous_position + acceleration * dt * dt` (in every
component) and sets `previous_position` to the pre-update position. -/
theorem C3_verlet_update (p : Particle) (translation : Vec3) (dt : ℝ) :
    (p.verlet translation dt).2.x
        = 2 * translation.x - p.tx_prev.x + p.acceleration.x * dt * dt
    ∧ (p.verlet translation dt).2.y
        = 2 * translation.y - p.tx_prev.y + p.acceleration.y * dt * dt
    ∧ (p.verlet translation dt).2.z
        = 2 * translation.z - p.tx_prev.z + p.acceleration.z * dt * dt
    ∧ (p.verlet translation dt).1.tx_prev = translation
    ∧ (p.verlet translation dt).1.acceleration = p.acceleration
    ∧ (p.verlet translation dt).1.mass = p.mass := by
  refine ⟨?_, ?_, ?_, rfl, rfl, rfl⟩ <;> simp [Particle.verlet] <;> norm_num

/-- Claim C7: the inverse mass used by a link-constraint application is
`1/mass` when `0.0001 ≤ |mass|` and the finite sentinel `100000000`
when `|mass| < 0.0001`; either way its magnitude is bounded by the
sentinel (in particular it is finite). -/
theorem C7_inverse_mass (m : ℝ) :
    (|m| < 0.0001 → invMass m = 100000000)
    ∧ (0.0001 ≤ |m| → invMass m = 1 / m)
    ∧ |invMass m| ≤ 100000000 := by
  refine ⟨fun h => by unfold invMass; rw [if_pos h]; norm_num,
    fun h => by unfold invMass; rw [if_neg (not_lt.mpr h)], ?_⟩
  unfold invMass
  split
  · norm_num
  · rename_i h
    push_neg at h
    rw [abs_div, abs_one]
    calc 1 / |m| ≤ 1 / 0.0001 := one_div_le_one_div_of_le (by norm_num) h
    _ ≤ 100000000 := by norm_num

/-- Witness for C7 at masses `0.00005` (below the epsilon) and `2`. -/
theorem C7_witness :
    (|(0.00005 : ℝ)| < 0.0001 ∧ invMass 0.00005 = 100000000)
    ∧ ((0.0001 : ℝ) ≤ |(2 : ℝ)| ∧ invMass 2 = 1 / 2) :=
  ⟨⟨by norm_num [abs_of_nonneg], (C7_inverse_mass 0.00005).1 (by norm_num [abs_of_nonneg])⟩,
   ⟨by norm_num [abs_of_nonneg], (C7_inverse_mass 2).2.1 (by norm_num [abs_of_nonneg])⟩⟩

/-- Claim C8: the boundary constraint clamps the position component-wise
into the box `[BOTTOM_BOUND, TOP_BOUND]` and is idempotent. -/
theorem C8_boundary_clamp_idempotent (v : Vec3) :
    Vec3.le BOTTOM_BOUND (Particle.satisfy_constraints v)
    ∧ Vec3.le (Particle.satisfy_constraints v) TOP_BOUND
    ∧ Particle.satisfy_constraints (Particle.satisfy_constraints v)
        = Particle.satisfy_constraints v :=
  ⟨satisfy_ge_bot v, satisfy_le_top v, satisfy_idem v⟩

/-- Claim C9: when either link endpoint does not resolve to a particle,
the per-link relaxation call panics (modelled as `none`) instead of
skipping the link. -/
theorem C9_missing_endpoint_panics (l : ParticleLink) (w : World)
    (h : w l.a = none ∨ w l.b = none) :
    l.satisfy_constraints w = none := by
  unfold ParticleLink.satisfy_constraints
  have hg : getManyMut w l.a l.b = none := by
    unfold getManyMut
    split
    · rfl
    · rcases h with h | h
      · rw [h]
      · rw [h]; cases w l.a <;> rfl
  rw [hg]

/-- Counterexample to claim C1 as stated: for an `Exact 15` link between
a mass-1 particle at the origin and a zero-mass particle at `(30,0,0)`,
one link-constraint application displaces the zero-mass particle by more
than 7 (it is not left in place), while the mass-1 particle moves by less
than 1 (it does not close the gap). -/
theorem C1_counterexample :
    7 < (30 : ℝ)
        - (link_constraint ⟨0, 0, 0⟩ unitParticle ⟨30, 0, 0⟩ zeroMassParticle
            (ParticleLinkType.Exact 15)).2.x
    ∧ (link_constraint ⟨0, 0, 0⟩ unitParticle ⟨30, 0, 0⟩ zeroMassParticle
        (ParticleLinkType.Exact 15)).1.x < 1 := by
  have hd : (⟨30, 0, 0⟩ : Vec3) - ⟨0, 0, 0⟩ = ⟨30, 0, 0⟩ := by ext <;> norm_num
  have hL : Vec3.length ((⟨30, 0, 0⟩ : Vec3) - ⟨0, 0, 0⟩) = 30 := by
    rw [hd]; exact length_single 30 (by norm_num)
  have him1 : invMass unitParticle.mass = 1 := by
    unfold invMass unitParticle; rw [if_neg (by norm_num)]; norm_num
  have him2 : invMass zeroMassParticle.mass = 100000000 := by
    unfold invMass zeroMassParticle; rw [if_pos (by norm_num)]; norm_num
  constructor <;> · simp [link_constraint, hL, him1, him2]; norm_num

/-- Claim C1 (amended): a particle whose mass is within the epsilon of
zero receives the huge sentinel inverse mass, so for an `Exact` link with
a mass-1 partner the near-zero-mass particle's displacement is 100000000
times the mass-1 particle's displacement (as vectors and in length): the
sentinel makes near-zero-mass particles maximally mobile, not pinned. -/
theorem C1_amended_near_zero_mass_mobile (tx1 tx2 : Vec3) (p1 p2 : Particle)
    (d : ℝ) (h1 : p1.mass = 1) (h2 : |p2.mass| < 0.0001) :
    tx2 - (link_constraint tx1 p1 tx2 p2 (ParticleLinkType.Exact d)).2
        = (100000000 : ℝ)
            * ((link_constraint tx1 p1 tx2 p2 (ParticleLinkType.Exact d)).1 - tx1)
    ∧ Vec3.length
          (tx2 - (link_constraint tx1 p1 tx2 p2 (ParticleLinkType.Exact d)).2)
        = 100000000
            * Vec3.length
                ((link_constraint tx1 p1 tx2 p2 (ParticleLinkType.Exact d)).1 - tx1) := by
  have him1 : invMass p1.mass = 1 := by
    rw [h1]; unfold invMass; rw [if_neg (by norm_num)]; norm_num
  have him2 : invMass p2.mass = 100000000 := by
    unfold invMass; rw [if_pos h2]; norm_num
  have hvec : tx2 - (link_constraint tx1 p1 tx2 p2 (ParticleLinkType.Exact d)).2
      = (100000000 : ℝ)
          * ((link_constraint tx1 p1 tx2 p2 (ParticleLinkType.Exact d)).1 - tx1) := by
    ext <;> simp [link_constraint, him1, him2]
  refine ⟨hvec, ?_⟩
  rw [hvec, length_smul]
  norm_num

/-- Witness for C1's amended theorem at the counterexample input. -/
theorem C1_amended_witness :
    (unitParticle.mass = 1 ∧ |zeroMassParticle.mass| < 0.0001)
    ∧ (⟨30, 0, 0⟩ : Vec3)
          - (link_constraint ⟨0, 0, 0⟩ unitParticle ⟨30, 0, 0⟩ zeroMassParticle
              (ParticleLinkType.Exact 15)).2
        = (100000000 : ℝ)
            * ((link_constraint ⟨0, 0, 0⟩ unitParticle ⟨30, 0, 0⟩ zeroMassParticle
                (ParticleLinkType.Exact 15)).1 - ⟨0, 0, 0⟩) :=
  ⟨⟨rfl, by norm_num [zeroMassParticle]⟩,
   (C1_amended_near_zero_mass_mobile ⟨0, 0, 0⟩ ⟨30, 0, 0⟩ unitParticle
      zeroMassParticle 15 rfl (by norm_num [zeroMassParticle])).1⟩

/-- Claim C6: two particles with equal positive mass joined by an
`Exact d` link (`d > 0`), starting at positive separation: repeated
application of the relaxation step drives the separation to `d` - for
every positive tolerance there is an iteration count beyond which the
separation stays within it. -/
theorem C6_exact_convergence (t1 t2 : Vec3) (d : ℝ) (pa pb : Particle)
    (hmass : pa.mass = pb.mass) (hpos : 0 < pa.mass) (hd : 0 < d)
    (h0 : 0 < Vec3.length (t2 - t1)) :
    ∀ ε : ℝ, 0 < ε → ∃ N : ℕ, ∀ n : ℕ, N ≤ n →
      |sepIter (ParticleLinkType.Exact d) pa pb (t1, t2) n - d| ≤ ε := by
  intro ε hε
  have hb : 0 < pb.mass := hmass ▸ hpos
  obtain ⟨N, hN⟩ :=
    pow_unbounded_of_one_lt (|Vec3.length (t2 - t1) - d| / ε) one_lt_two
  refine ⟨N, fun n hn => ?_⟩
  obtain ⟨hf, -⟩ := sep_exact_formula d pa pb hd hpos hb n (t1, t2) h0
  have hL2 : Vec3.length (((t1, t2) : Vec3 × Vec3).2 - ((t1, t2) : Vec3 × Vec3).1)
      = Vec3.length (t2 - t1) := rfl
  rw [hL2] at hf
  rw [hf, show d + (Vec3.length (t2 - t1) - d) / 2 ^ n - d
      = (Vec3.length (t2 - t1) - d) / 2 ^ n by ring]
  have h2n : (0 : ℝ) < 2 ^ n := by positivity
  rw [abs_div, abs_of_pos h2n, div_le_iff₀ h2n]
  have hNn : (2 : ℝ) ^ N ≤ 2 ^ n := pow_le_pow_right₀ one_le_two hn
  have h1 : |Vec3.length (t2 - t1) - d| < ε * 2 ^ N := by
    have := (div_lt_iff₀ hε).mp hN
    linarith [this]
  nlinarith [hNn, hε.le]

/-- Witness for C6: separation 30, target 15, unit masses. -/
theorem C6_witness :
    (0 < (15 : ℝ) ∧ unitParticle.mass = unitParticle.mass
      ∧ 0 < unitParticle.mass
      ∧ 0 < Vec3.length ((⟨30, 0, 0⟩ : Vec3) - ⟨0, 0, 0⟩))
    ∧ (∀ ε : ℝ, 0 < ε → ∃ N : ℕ, ∀ n : ℕ, N ≤ n →
        |sepIter (ParticleLinkType.Exact 15) unitParticle unitParticle
            (⟨0, 0, 0⟩, ⟨30, 0, 0⟩) n - 15| ≤ ε) := by
  have hd : (⟨30, 0, 0⟩ : Vec3) - ⟨0, 0, 0⟩ = ⟨30, 0, 0⟩ := by ext <;> norm_num
  have hL : Vec3.length ((⟨30, 0, 0⟩ : Vec3) - ⟨0, 0, 0⟩) = 30 := by
    rw [hd]; exact length_single 30 (by norm_num)
  exact ⟨⟨by norm_num, rfl, by norm_num [unitParticle], by rw [hL]; norm_num⟩,
    C6_exact_convergence ⟨0, 0, 0⟩ ⟨30, 0, 0⟩ 15 unitParticle unitParticle rfl
      (by norm_num [unitParticle]) (by norm_num) (by rw [hL]; norm_num)⟩

/-- Claim C4: the per-link relaxation loop (clamp both endpoints, then
the link constraint, per iteration) executes at most `NUM_ITERATIONS = 5`
iterations, and an iteration that changes neither endpoint position ends
the loop after that iteration - one iteration executed, final state
exactly the entering state. -/
theorem C4_relax_loop_early_exit (link_type : ParticleLinkType)
    (pa pb : Particle) (s : Vec3 × Vec3) (n : ℕ) (hn : 1 ≤ n) :
    (relaxLoop link_type pa pb n s).2 ≤ n
    ∧ NUM_ITERATIONS = 5
    ∧ (relaxStep link_type pa pb s = s →
        relaxLoop link_type pa pb n s = (s, 1) ∧ 1 < NUM_ITERATIONS) := by
  refine ⟨relaxLoop_count _ _ _ _ _, rfl, fun h => ⟨?_, by norm_num [NUM_ITERATIONS]⟩⟩
  obtain ⟨m, rfl⟩ := Nat.exists_eq_add_of_le' hn
  exact relaxLoop_fix link_type pa pb s m h

/-- Witness for C4: a satisfied, in-box `Exact 15` link is a fixed point
and the loop exits after one iteration. -/
theorem C4_witness :
    relaxStep (ParticleLinkType.Exact 15) unitParticle unitParticle (fixA, fixB)
        = (fixA, fixB)
    ∧ relaxLoop (ParticleLinkType.Exact 15) unitParticle unitParticle
        NUM_ITERATIONS (fixA, fixB) = ((fixA, fixB), 1) := by
  have hca : Particle.satisfy_constraints fixA = fixA := by
    ext <;> norm_num [Particle.satisfy_constraints, Vec3.clamp, BOTTOM_BOUND,
      TOP_BOUND, fixA, max_def, min_def]
  have hcb : Particle.satisfy_constraints fixB = fixB := by
    ext <;> norm_num [Particle.satisfy_constraints, Vec3.clamp, BOTTOM_BOUND,
      TOP_BOUND, fixB, max_def, min_def]
  have hd : fixB - fixA = ⟨15, 0, 0⟩ := by
    ext <;> norm_num [fixA, fixB]
  have hL : Vec3.length (fixB - fixA) = 15 := by
    rw [hd]; exact length_single 15 (by norm_num)
  have hstep : relaxStep (ParticleLinkType.Exact 15) unitParticle unitParticle
      (fixA, fixB) = (fixA, fixB) := by
    simp only [relaxStep, hca, hcb, link_constraint, hL, Prod.mk.injEq]
    constructor <;> ext <;> simp
  exact ⟨hstep,
    ((C4_relax_loop_early_exit (ParticleLinkType.Exact 15) unitParticle unitParticle
      (fixA, fixB) NUM_ITERATIONS (by norm_num [NUM_ITERATIONS])).2.2 hstep).1⟩

/-- Claim C5: for non-coincident endpoints with positive masses, an
already-satisfied `Min` link (separation above the bound) and an
already-satisfied `Max` link (separation below the bound) displace
neither endpoint. -/
theorem C5_min_max_one_sided (tx1 tx2 : Vec3) (p1 p2 : Particle)
    (dmin dmax : ℝ) (_h1 : 0 < p1.mass) (_h2 : 0 < p2.mass)
    (_h0 : 0 < Vec3.length (tx2 - tx1)) :
    (dmin < Vec3.length (tx2 - tx1) →
      link_constraint tx1 p1 tx2 p2 (ParticleLinkType.Min dmin) = (tx1, tx2))
    ∧ (Vec3.length (tx2 - tx1) < dmax →
      link_constraint tx1 p1 tx2 p2 (ParticleLinkType.Max dmax) = (tx1, tx2)) := by
  constructor
  · intro h
    have hmax : max (Vec3.length (tx2 - tx1)) dmin = Vec3.length (tx2 - tx1) :=
      max_eq_left h.le
    simp only [link_constraint, hmax, Prod.mk.injEq]
    constructor <;> ext <;> simp
  · intro h
    have hmin : min (Vec3.length (tx2 - tx1)) dmax = Vec3.length (tx2 - tx1) :=
      min_eq_left h.le
    simp only [link_constraint, hmin, Prod.mk.injEq]
    constructor <;> ext <;> simp

/-- Witness for C5: endpoints 20 apart, `Min 10` and `Max 25`. -/
theorem C5_witness :
    (0 < unitParticle.mass
      ∧ 0 < Vec3.length ((⟨20, 0, 0⟩ : Vec3) - ⟨0, 0, 0⟩)
      ∧ 10 < Vec3.length ((⟨20, 0, 0⟩ : Vec3) - ⟨0, 0, 0⟩)
      ∧ Vec3.length ((⟨20, 0, 0⟩ : Vec3) - ⟨0, 0, 0⟩) < 25)
    ∧ link_constraint ⟨0, 0, 0⟩ unitParticle ⟨20, 0, 0⟩ unitParticle
        (ParticleLinkType.Min 10) = (⟨0, 0, 0⟩, ⟨20, 0, 0⟩)
    ∧ link_constraint ⟨0, 0, 0⟩ unitParticle ⟨20, 0, 0⟩ unitParticle
        (ParticleLinkType.Max 25) = (⟨0, 0, 0⟩, ⟨20, 0, 0⟩) := by
  have hd : (⟨20, 0, 0⟩ : Vec3) - ⟨0, 0, 0⟩ = ⟨20, 0, 0⟩ := by
    ext <;> norm_num
  have hL : Vec3.length ((⟨20, 0, 0⟩ : Vec3) - ⟨0, 0, 0⟩) = 20 := by
    rw [hd]; exact length_single 20 (by norm_num)
  have hm : 0 < unitParticle.mass := by norm_num [unitParticle]
  refine ⟨⟨hm, by rw [hL]; norm_num, by rw [hL]; norm_num, by rw [hL]; norm_num⟩, ?_, ?_⟩
  · exact (C5_min_max_one_sided ⟨0, 0, 0⟩ ⟨20, 0, 0⟩ unitParticle unitParticle
      10 25 hm hm (by rw [hL]; norm_num)).1 (by rw [hL]; norm_num)
  · exact (C5_min_max_one_sided ⟨0, 0, 0⟩ ⟨20, 0, 0⟩ unitParticle unitParticle
      10 25 hm hm (by rw [hL]; norm_num)).2 (by rw [hL]; norm_num)

/-- Claim C10: after a full fixed-update tick (integrate, relax all
links, then the final clamp pass over every particle), every particle's
position lies component-wise within `[BOTTOM_BOUND, TOP_BOUND]`. -/
theorem C10_tick_in_bounds (gravity : Vec3) (dt : ℝ)
    (links : List ParticleLink) (w w' : World)
    (h : fixedTick gravity dt links w = some w') :
    ∀ (e : Entity) (s : PState), w' e = some s →
      Vec3.le BOTTOM_BOUND s.tx ∧ Vec3.le s.tx TOP_BOUND := by
  intro e s hs
  unfold fixedTick at h
  cases hr : relaxAll links (integrateAll gravity dt w) with
  | none => rw [hr] at h; simp at h
  | some w2 =>
    rw [hr] at h
    have hw' : w' = constrainUnlinkedParticles w2 := by
      injection h with h'
      exact h'.symm
    rw [hw'] at hs
    unfold constrainUnlinkedParticles at hs
    cases hw2 : w2 e with
    | none => rw [hw2] at hs; simp at hs
    | some s0 =>
      rw [hw2] at hs
      simp only [Option.map_some', Option.some.injEq] at hs
      rw [← hs]
      exact ⟨satisfy_ge_bot _, satisfy_le_top _⟩

/-- Witness for C10: one tick on a one-particle world with no links. -/
theorem C10_witness :
    fixedTick DEFAULT_PARTICLE_GRAVITY 1 [] oneParticleWorld
        = some (constrainUnlinkedParticles
            (integrateAll DEFAULT_PARTICLE_GRAVITY 1 oneParticleWorld))
    ∧ (∀ (e : Entity) (s : PState),
        constrainUnlinkedParticles
            (integrateAll DEFAULT_PARTICLE_GRAVITY 1 oneParticleWorld) e = some s →
          Vec3.le BOTTOM_BOUND s.tx ∧ Vec3.le s.tx TOP_BOUND) :=
  ⟨rfl, C10_tick_in_bounds DEFAULT_PARTICLE_GRAVITY 1 [] oneParticleWorld _ rfl⟩

/-- Witness for C9: a link on an empty world. -/
theorem C9_witness :
    (emptyWorld 0 = none ∨ emptyWorld 1 = none)
    ∧ ParticleLink.satisfy_constraints ⟨0, 1, ParticleLinkType.Exact 15⟩ emptyWorld
        = none :=
  ⟨Or.inl rfl,
   C9_missing_endpoint_panics ⟨0, 1, ParticleLinkType.Exact 15⟩ emptyWorld (Or.inl rfl)⟩

end Procanim
